import Mathlib

/-!
Verification of the Supply_Chain_Data_Integration repository.

The development shallowly embeds the pipeline logic of the repository:
the pandas dataframe operations of `Supply project/output.py` and
`Supply project/dashboard/app.py` (filtering, KPI metrics, group-by
rollups, CSV export/ingest), the orchestrator `Supply project/main.py`,
and the tabular-file adapter
`Supply project/data_Ingestion/excel_ingestor.py`.

Modelling conventions:
* A dataframe row of `data/processed_data.csv` is a `Row`; a dataframe is
  a `List Row` in file order.
* Dates are whole days (`Int`), matching timestamps parsed from date-only
  strings (midnight): subtraction of such timestamps followed by pandas
  `.dt.days` is exactly integer subtraction.
* A missing value (pandas `NaN` / `NaT`) in a column is `Option.none`.
  Numeric columns hold `Option Int` (the source data's quantity, stock
  and inventory columns are integral); pandas `sum`, `mean`, `median`,
  `std` use `skipna=True`, modelled by dropping the `none`s.
* Comparisons against a missing value are `false`, as in pandas.
* Exact rational arithmetic (`ℚ`) stands in for IEEE floating point; a
  float division whose denominator is zero yields a non-finite value
  (`nan` or `inf`), which we model as `Option.none` of the operation.
-/

namespace SupplyChain

/-! ### Generic list utilities (insertion sort, as a model of sorting) -/

/-- Insert `x` into `l` in front of the first element `y` with `le x y`.
Used to model sorted output (pandas `groupby(sort=True)` / `sort_values`);
only the resulting order matters, not the algorithm. -/
def insertLe {α : Type} (le : α → α → Bool) (x : α) : List α → List α
  | [] => [x]
  | y :: ys => if le x y then x :: y :: ys else y :: insertLe le x ys

/-- Insertion sort by the boolean comparison `le`. -/
def sortByLe {α : Type} (le : α → α → Bool) : List α → List α
  | [] => []
  | x :: xs => insertLe le x (sortByLe le xs)

/-! ### pandas series statistics over integer data (skipna semantics) -/

/-- pandas `Series.sum()` over an integer column with missing values:
missing entries are skipped (`skipna=True`), the empty sum is 0. -/
def nanSum (xs : List (Option Int)) : Int := (xs.filterMap id).sum

/-- The non-missing entries of a series, in order (`dropna`). -/
def dropna (xs : List (Option Int)) : List Int := xs.filterMap id

/-- pandas `Series.mean()` over the plain integer list: `NaN` (here
`none`) on an empty list, otherwise the exact arithmetic mean. -/
def listMean (xs : List Int) : Option ℚ :=
  if xs.length = 0 then none else some ((xs.sum : ℚ) / (xs.length : ℚ))

/-- Ascending sort of an integer list. -/
def sortInts (xs : List Int) : List Int := sortByLe (fun a b => decide (a ≤ b)) xs

/-- pandas `Series.median()`: `NaN` on empty input; the middle element of
the sorted values for odd length, the mean of the two middle elements for
even length. -/
def listMedian (xs : List Int) : Option ℚ :=
  let s := sortInts xs
  let n := s.length
  if n = 0 then none
  else if n % 2 = 1 then some ((s.getD (n / 2) 0 : ℚ))
  else some (((s.getD (n / 2 - 1) 0 : ℚ) + (s.getD (n / 2) 0 : ℚ)) / 2)

/-- pandas `Series.var()` with the default `ddof=1` (sample variance):
`NaN` (here `none`) when fewer than two observations are present.
pandas `Series.std()` is the square root of this quantity, so `std` is
`NaN` exactly when this is `none`, and `std = 0` exactly when this is
`some 0`; claims about `std` being zero or undefined are settled through
this definition. -/
def sampleVar (xs : List Int) : Option ℚ :=
  if xs.length < 2 then none
  else
    let m : ℚ := (xs.sum : ℚ) / (xs.length : ℚ)
    some (((xs.map (fun x => ((x : ℚ) - m) ^ 2)).sum) / ((xs.length : ℚ) - 1))

/-- Mean of a series with missing values: pandas skips the `NaN`s. -/
def seriesMean (xs : List (Option Int)) : Option ℚ := listMean (dropna xs)

/-- Median of a series with missing values: pandas skips the `NaN`s. -/
def seriesMedian (xs : List (Option Int)) : Option ℚ := listMedian (dropna xs)

/-- Sample variance of a series with missing values (pandas `ddof=1`,
`skipna=True`); `Series.std()` is its square root (see `sampleVar`). -/
def seriesVar (xs : List (Option Int)) : Option ℚ := sampleVar (dropna xs)

/-! ### Python / numpy numeric helpers -/

/-- numpy float division: when the denominator is zero the result is not
a finite number (`0/0` is `nan`, `x/0` is `±inf`, each with a
`RuntimeWarning` but no exception); we model any non-finite result as
`none`. -/
def pyDiv (n d : Int) : Option ℚ :=
  if d = 0 then none else some ((n : ℚ) / (d : ℚ))

/-- Rounding half-to-even to an integer, the rounding of Python's
`round` on a numpy float. -/
def roundHalfEven (q : ℚ) : Int :=
  if q - (⌊q⌋ : ℚ) < 1 / 2 then ⌊q⌋
  else if (⌊q⌋ : ℚ) + 1 / 2 < q then ⌊q⌋ + 1
  else if 2 ∣ ⌊q⌋ then ⌊q⌋ else ⌊q⌋ + 1

/-- `round(x, 1)`: round to one decimal digit, half to even. -/
def round1 (q : ℚ) : ℚ := (roundHalfEven (q * 10) : ℚ) / 10

/-- Comparison of two possibly-missing numbers, as pandas `<` between
columns: any comparison involving a missing value is `False`. -/
def optLt (a b : Option Int) : Bool :=
  match a, b with
  | some x, some y => decide (x < y)
  | _, _ => false

/-! ### The unified record model

One row of `data/processed_data.csv` as the dashboards read it
(`pd.read_csv(..., parse_dates=["Order Date", "Ship Date"])`).
Only the columns the verified code paths touch are modelled. -/

structure Row where
  orderId : Option String
  orderDate : Option Int
  shipDate : Option Int
  category : Option String
  productId : Option String
  qtyOrdered : Option Int
  qtyDelivered : Option Int
  inventory : Option Int
  reorderLevel : Option Int
  stockLevel : Option Int
  reorderPoint : Option Int
  inventoryLevel : Option Int
deriving DecidableEq, Repr

/-! ### Filter Engine (`output.py` lines 35-37, `dashboard/app.py` lines 25-28) -/

/-- The date mask plus the category filter:
`df[(df["Order Date"] >= start) & (df["Order Date"] <= end)]`, then
`filtered_df[filtered_df["Category"] == category]` unless the category is
the sentinel `"All"`.  A row with a missing order date fails both date
comparisons (`NaT` compares `False`), and a row with a missing category
fails the equality comparison. -/
def filtered_df (df : List Row) (startDate endDate : Int) (category : String) : List Row :=
  let dated := df.filter (fun r =>
    match r.orderDate with
    | some d => decide (startDate ≤ d) && decide (d ≤ endDate)
    | none => false)
  if category = "All" then dated
  else dated.filter (fun r => decide (r.category = some category))

/-- `df["Order Date"].min()`: minimum of the present dates, `NaT` (none)
when every date is missing. -/
def minDate : List Int → Option Int
  | [] => none
  | x :: xs => match minDate xs with
    | none => some x
    | some m => some (min x m)

/-- `df["Order Date"].max()`: maximum of the present dates. -/
def maxDate : List Int → Option Int
  | [] => none
  | x :: xs => match maxDate xs with
    | none => some x
    | some m => some (max x m)

/-- The order-date column of a dataframe, missing values dropped. -/
def orderDates (df : List Row) : List Int := df.filterMap Row.orderDate

/-! ### Metrics Engine -/

/-- Sum of a numeric column over the filtered view (skipna). -/
def sumBy (f : Row → Option Int) (df : List Row) : Int := nanSum (df.map f)

/-- `output.py` line 43:
`round(filtered_df["Quantity Delivered"].sum() / filtered_df["Quantity Ordered"].sum() * 100, 1)`.
No zero-denominator guard exists in the source: a zero ordered sum makes
the division non-finite (`none`). -/
def fill_rate (df : List Row) : Option ℚ :=
  (pyDiv (sumBy Row.qtyDelivered df) (sumBy Row.qtyOrdered df)).map
    (fun x => round1 (x * 100))

/-- `output.py` line 44:
`round(filtered_df["Quantity Delivered"].sum() / filtered_df["Inventory"].sum(), 1)`. -/
def inventory_turnover (df : List Row) : Option ℚ :=
  (pyDiv (sumBy Row.qtyDelivered df) (sumBy Row.inventory df)).map round1

/-- The fill-rate formula of the spec, before display rounding. -/
def fillRateFormula (df : List Row) : ℚ :=
  (sumBy Row.qtyDelivered df : ℚ) / (sumBy Row.qtyOrdered df : ℚ) * 100

/-- The turnover formula of the spec, before display rounding. -/
def turnoverFormula (df : List Row) : ℚ :=
  (sumBy Row.qtyDelivered df : ℚ) / (sumBy Row.inventory df : ℚ)

/-- Modelled from the spec (§4.4 safe division): fill rate with the
zero denominator defined to 0.  Stated only to be compared against the
code's `fill_rate`. -/
def fill_rate_spec (df : List Row) : ℚ :=
  if sumBy Row.qtyOrdered df = 0 then 0 else fillRateFormula df

/-- Modelled from the spec (§4.4 safe division): turnover with the zero
denominator defined to 0. -/
def inventory_turnover_spec (df : List Row) : ℚ :=
  if sumBy Row.inventory df = 0 then 0 else turnoverFormula df

/-- `dashboard/app.py` line 62:
`df_filtered[df_filtered["Stock Level"] < df_filtered["Reorder Point"]]["Product ID"].nunique()` —
the number of distinct product identifiers among the at-risk rows
(`nunique` drops missing identifiers). -/
def products_at_risk_app (df : List Row) : Nat :=
  (((df.filter (fun r => optLt r.stockLevel r.reorderPoint)).filterMap
      Row.productId).dedup).length

/-- `dashboard/app.py` line 80: `df_filtered['Product ID'].nunique()`. -/
def total_products (df : List Row) : Nat :=
  ((df.filterMap Row.productId).dedup).length

/-- `output.py` line 45:
`(filtered_df["Inventory"] < filtered_df["Reorder Level"]).sum()` — the
number of qualifying rows, not of distinct products. -/
def products_at_risk_out (df : List Row) : Nat :=
  (df.filter (fun r => optLt r.inventory r.reorderLevel)).length

/-- `dashboard/app.py` line 34:
`(df_filtered["Ship Date"] - df_filtered["Order Date"]).dt.days` — one
entry per row; a missing date on either side gives `NaT - t = NaT`,
hence a missing lead time. -/
def lead_times (df : List Row) : List (Option Int) :=
  df.map (fun r =>
    match r.shipDate, r.orderDate with
    | some s, some o => some (s - o)
    | _, _ => none)

/-- The lead times of the rows having both dates, in row order. -/
def presentLeadTimes (df : List Row) : List Int :=
  df.filterMap (fun r =>
    match r.shipDate, r.orderDate with
    | some s, some o => some (s - o)
    | _, _ => none)

/-! ### String ordering (Python sorts strings by code point, lexicographically) -/

/-- Lexicographic non-strict comparison of char lists by code point. -/
def charLe : List Char → List Char → Bool
  | [], _ => true
  | _ :: _, [] => false
  | a :: as, b :: bs => if a < b then true else if b < a then false else charLe as bs

/-- Python's `<=` on strings: code-point lexicographic order. -/
def strLe (s t : String) : Bool := charLe s.data t.data

/-! ### Aggregation / grouping

pandas `df.groupby(k)[v].agg(...)`: one output entry per distinct
non-missing key (default `dropna=True`), keys sorted ascending (default
`sort=True`); groups with no rows do not exist, so no bucket is
zero-filled. -/

/-- The distinct non-missing integer keys of a column, ascending. -/
def groupKeysInt (key : Row → Option Int) (df : List Row) : List Int :=
  sortInts (df.filterMap key).dedup

/-- The distinct non-missing string keys of a column, ascending. -/
def groupKeysStr (key : Row → Option String) (df : List Row) : List String :=
  sortByLe strLe (df.filterMap key).dedup

/-- The rows of one group. -/
def groupRowsInt (key : Row → Option Int) (k : Int) (df : List Row) : List Row :=
  df.filter (fun r => decide (key r = some k))

/-- The rows of one group (string key). -/
def groupRowsStr (key : Row → Option String) (k : String) (df : List Row) : List Row :=
  df.filter (fun r => decide (key r = some k))

/-- `output.py` line 67:
`filtered_df.groupby("Order Date")["Inventory"].sum().reset_index()` —
total inventory per order date, one pair per observed date, dates
ascending. -/
def inventory_trend (df : List Row) : List (Int × Int) :=
  (groupKeysInt Row.orderDate df).map
    (fun k => (k, sumBy Row.inventory (groupRowsInt Row.orderDate k df)))

/-- `dashboard/app.py` line 47:
`df_filtered.groupby("Order Date")["Inventory Level"].mean().reset_index()` —
mean inventory level per order date (`NaN` for an all-missing group). -/
def df_time (df : List Row) : List (Int × Option ℚ) :=
  (groupKeysInt Row.orderDate df).map
    (fun k => (k, seriesMean ((groupRowsInt Row.orderDate k df).map Row.inventoryLevel)))

/-- `output.py` line 73:
`filtered_df.groupby("Category")["Quantity Delivered"].sum().reset_index().sort_values(by="Quantity Delivered", ascending=False)` —
total delivered quantity per category, re-sorted by the value,
descending. -/
def cat_perf (df : List Row) : List (String × Int) :=
  sortByLe (fun a b => decide (b.2 ≤ a.2))
    ((groupKeysStr Row.category df).map
      (fun k => (k, sumBy Row.qtyDelivered (groupRowsStr Row.category k df))))

/-! ### Orchestrator (`main.py`, function `main`, lines 27-54)

Each ingestion step runs inside its own `try`/`except Exception` that
prints a per-source diagnostic and continues.  The sources are modelled
as oracles: the Excel load and the API fetch either yield a result or
raise, and the inventory simulation is a function of the fetched product
list.  Python scoping is modelled faithfully: when the API fetch raises,
the local variable `products` is never bound, so step 3's use of it
raises a `NameError` — which the step's own `except` catches. -/

inductive Diag where
  | excelOk (n : Nat)
  | excelFail (e : String)
  | apiOk (n : Nat)
  | apiFail (e : String)
  | simOk (n : Nat)
  | simFail (e : String)
deriving DecidableEq, Repr

/-- The message of the `NameError` raised by `simulate_inventory(products)`
when `products` was never assigned. -/
def nameErrorProducts : String := "name products is not defined"

/-- One run's source outcomes: what each source would do if invoked. -/
structure SourceWorld where
  excel : Except String Nat
  api : Except String (List Nat)
  sim : List Nat → Except String Nat

/-- `main()`: the three guarded ingestion steps in order; returns the
per-step diagnostics and whether the final completion line is reached
(it always is — every exception is caught). -/
def runMain (w : SourceWorld) : List Diag × Bool :=
  let d1 := match w.excel with
    | .ok n => Diag.excelOk n
    | .error e => Diag.excelFail e
  let products : Option (List Nat) := match w.api with
    | .ok ps => some ps
    | .error _ => none
  let d2 := match w.api with
    | .ok ps => Diag.apiOk ps.length
    | .error e => Diag.apiFail e
  let d3 := match products with
    | none => Diag.simFail nameErrorProducts
    | some ps =>
      match w.sim ps with
      | .ok n => Diag.simOk n
      | .error e => Diag.simFail e
  ([d1, d2, d3], true)

/-! ### Tabular-file adapter (`data_Ingestion/excel_ingestor.py`) -/

/-- A Python value passed as the `sheet_name` argument. -/
inductive PyVal where
  | pynone
  | pystr (s : String)
  | pyint (z : Int)
deriving DecidableEq, Repr

/-- Python truthiness: `None`, `""` and `0` are falsy. -/
def truthy : PyVal → Bool
  | .pynone => false
  | .pystr s => decide (s ≠ "")
  | .pyint z => decide (z ≠ 0)

/-- What the filesystem holds at a path: nothing, an unparsable file, or
a workbook (its sheets, keyed by name, in workbook order). -/
inductive ExcelSource (α : Type) where
  | missing
  | corrupt (err : String)
  | file (sheets : List (String × α))
deriving DecidableEq, Repr

/-- The outcome of `load_excel_data`: the `FileNotFoundError` of the
existence check (the code's realization of `SourceUnavailable`), the
wrapping `Exception` raised on any parse failure (the realization of
`SourceFormatError`), a single sheet, or all sheets keyed by name. -/
inductive LoadResult (α : Type) where
  | fileNotFound (msg : String)
  | exn (msg : String)
  | one (df : α)
  | allSheets (sheets : List (String × α))
deriving DecidableEq, Repr

/-- `raise Exception(f"Error loading Excel file: {e}")`. -/
def wrapMsg (e : String) : String := "Error loading Excel file: " ++ e

/-- `load_excel_data(filepath, sheet_name)`: the existence check first
(`FileNotFoundError` when missing), then `pd.read_excel` inside
`try`/`except` whose failures are re-raised wrapped.  The sheet
selector is tested with `if sheet_name:` — Python truthiness — so `None`,
`""` and `0` all take the read-all-sheets branch (`sheet_name=None`). -/
def load_excel_data {α : Type} (fs : String → ExcelSource α)
    (filepath : String) (sheet_name : PyVal) : LoadResult α :=
  match fs filepath with
  | .missing => .fileNotFound ("File not found: " ++ filepath)
  | .corrupt e => .exn (wrapMsg e)
  | .file sheets =>
    if truthy sheet_name then
      match sheet_name with
      | .pystr s =>
        match (sheets.find? (fun p => decide (p.1 = s))).map Prod.snd with
        | some df => .one df
        | none => .exn (wrapMsg ("Worksheet named " ++ s ++ " not found"))
      | .pyint z =>
        if z < 0 then .exn (wrapMsg "sheet index below zero")
        else
          match sheets[z.toNat]? with
          | some p => .one p.2
          | none => .exn (wrapMsg "sheet index out of range")
      | .pynone => .allSheets sheets
    else .allSheets sheets

/-! ### Delimited text export / re-ingestion (`dashboard/app.py`)

Line 104 exports the filtered view with `df_filtered.to_csv(index=False)`
and `load_data` (lines 8-11) re-ingests a CSV with
`pd.read_csv(..., parse_dates=["Order Date", "Ship Date"])`.

The writer is modelled at the character level: cells joined by commas,
records terminated by a newline, minimal quoting (a cell containing a
comma, a double quote or a newline is wrapped in double quotes with
inner quotes doubled) — the `csv.QUOTE_MINIMAL` behaviour of `to_csv`.
The reader undoes the quoting.

Cell values: a missing value is written as the empty cell and read back
as missing (the empty string is one of the reader's NA tokens); integer
cells are written in decimal and read back; date cells are written and
read through the day-number codec (a stand-in for the ISO date printer
and parser, which form the same kind of printer/parser inverse pair);
string cells are written verbatim and read back verbatim unless the text
is one of the reader's NA tokens. -/

/-- Does a cell need quoting? (`csv.QUOTE_MINIMAL`.) -/
def needsQuote (cell : List Char) : Bool :=
  cell.any (fun c => c = ',' || c = '"' || c = '\n')

/-- Double every double quote of a quoted cell's body. -/
def escapeQuotes : List Char → List Char
  | [] => []
  | c :: cs => if c = '"' then '"' :: '"' :: escapeQuotes cs else c :: escapeQuotes cs

/-- Write one cell, quoted only when needed. -/
def encodeCell (cell : List Char) : List Char :=
  if needsQuote cell then '"' :: (escapeQuotes cell ++ ['"']) else cell

/-- Write one record: cells joined by commas (no trailing newline). -/
def encodeRec : List (List Char) → List Char
  | [] => []
  | [c] => encodeCell c
  | c :: cs => encodeCell c ++ ',' :: encodeRec cs

/-- Write the whole file: every record terminated by a newline. -/
def encodeFile (recs : List (List (List Char))) : List Char :=
  (recs.map (fun r => encodeRec r ++ ['\n'])).flatten

/-- Read an unquoted cell: everything up to the next comma or newline
(which is left in place). -/
def takeBare : List Char → List Char × List Char
  | [] => ([], [])
  | c :: cs =>
    if c = ',' || c = '\n' then ([], c :: cs)
    else
      let p := takeBare cs
      (c :: p.1, p.2)

/-- Read the body of a quoted cell, after the opening quote: a doubled
quote is one literal quote, a single quote closes the cell; `none` on an
unterminated cell. -/
def takeQuoted : List Char → Option (List Char × List Char)
  | [] => none
  | c :: cs =>
    if c = '"' then
      if cs.head? = some '"' then
        (takeQuoted cs.tail).map (fun p => ('"' :: p.1, p.2))
      else some ([], cs)
    else (takeQuoted cs).map (fun p => (c :: p.1, p.2))
termination_by l => l.length
decreasing_by
  · simp only [List.length_cons, List.length_tail]
    omega
  · simp [Nat.lt_succ_self]

/-- Read one cell. -/
def parseCell (l : List Char) : Option (List Char × List Char) :=
  if l.head? = some '"' then takeQuoted l.tail else some (takeBare l)

/-- Read one newline-terminated record (the newline is consumed); the
fuel bounds the number of cells, each recursive step consuming at least
the separating comma. -/
def parseRecAux : Nat → List Char → Option (List (List Char) × List Char)
  | 0, _ => none
  | fuel + 1, l =>
    match parseCell l with
    | none => none
    | some (cell, rest) =>
      match rest with
      | ',' :: rest2 => (parseRecAux fuel rest2).map (fun p => (cell :: p.1, p.2))
      | '\n' :: rest2 => some ([cell], rest2)
      | _ => none

/-- Read one record with enough fuel for any input. -/
def parseRec (l : List Char) : Option (List (List Char) × List Char) :=
  parseRecAux (l.length + 1) l

/-- Read all records until the end of the file; each record consumes at
least its newline, so the fuel bounds the number of records. -/
def parseFileAux : Nat → List Char → Option (List (List (List Char)))
  | 0, l => if l = [] then some [] else none
  | fuel + 1, l =>
    if l = [] then some []
    else
      match parseRec l with
      | none => none
      | some (row, rest) => (parseFileAux fuel rest).map (fun rs => row :: rs)

/-- Read the whole file with enough fuel for any input. -/
def parseFile (l : List Char) : Option (List (List (List Char))) :=
  parseFileAux (l.length + 1) l

/-! #### Cell value codecs -/

/-- The digit character of `d`. -/
def digCh (d : Nat) : Char := Char.ofNat (48 + d)

/-- The value of a digit character. -/
def chDig (c : Char) : Option Nat :=
  if 48 ≤ c.toNat ∧ c.toNat ≤ 57 then some (c.toNat - 48) else none

/-- Decimal cell of a natural number. -/
def natCell (n : Nat) : List Char :=
  if n = 0 then ['0'] else (Nat.digits 10 n).reverse.map digCh

/-- Decimal cell of an integer. -/
def intCell (z : Int) : List Char :=
  if z < 0 then '-' :: natCell z.natAbs else natCell z.toNat

/-- Big-endian accumulation of decimal digits; `none` on a non-digit. -/
def digitsValAux : Nat → List Char → Option Nat
  | acc, [] => some acc
  | acc, c :: cs =>
    match chDig c with
    | some d => digitsValAux (10 * acc + d) cs
    | none => none

/-- Read a decimal natural number; `none` on the empty cell or any
non-digit character. -/
def parseNatCell (l : List Char) : Option Nat :=
  if l = [] then none else digitsValAux 0 l

/-- Read a decimal integer (optional leading minus sign). -/
def parseIntCell (l : List Char) : Option Int :=
  if l.head? = some '-' then (parseNatCell l.tail).map (fun n => -(n : Int))
  else (parseNatCell l).map (fun n => (n : Int))

/-- The reader's NA tokens (pandas `read_csv` default `na_values`). -/
def naTokens : List (List Char) :=
  ["", "#N/A", "#N/A N/A", "#NA", "-NaN", "-nan", "<NA>", "N/A", "NA",
   "NULL", "NaN", "None", "n/a", "nan", "null"].map String.data

/-- Read a string cell into its value: an NA token is a missing value,
anything else is the text itself. -/
def decStrCell (cell : List Char) : Option String :=
  if cell ∈ naTokens then none else some (String.mk cell)

/-- Write a string value: missing is the empty cell. -/
def encStrCell : Option String → List Char
  | none => []
  | some s => s.data

/-- Read a numeric cell: an integer if it parses, a missing value on an
NA token; an unreadable cell fails the ingestion of the row (in pandas it
would change the column's type, which equally breaks field-for-field
equality, so the model folds it into failure). -/
def decIntCell (cell : List Char) : Option (Option Int) :=
  match parseIntCell cell with
  | some z => some (some z)
  | none => if cell ∈ naTokens then some none else none

/-- Write a numeric value: missing is the empty cell. -/
def encIntCell : Option Int → List Char
  | none => []
  | some z => intCell z

/-- The header row written by `to_csv(index=False)` and checked (as the
column names) by the re-ingestion. -/
def headerRec : List (List Char) :=
  ["Order ID", "Order Date", "Ship Date", "Category", "Product ID",
   "Quantity Ordered", "Quantity Delivered", "Inventory", "Reorder Level",
   "Stock Level", "Reorder Point", "Inventory Level"].map String.data

/-- The cells of one exported row, in header order. -/
def encodeRow (r : Row) : List (List Char) :=
  [encStrCell r.orderId, encIntCell r.orderDate, encIntCell r.shipDate,
   encStrCell r.category, encStrCell r.productId, encIntCell r.qtyOrdered,
   encIntCell r.qtyDelivered, encIntCell r.inventory, encIntCell r.reorderLevel,
   encIntCell r.stockLevel, encIntCell r.reorderPoint, encIntCell r.inventoryLevel]

/-- Rebuild one row from the cells of one record; fails unless the
record has exactly the twelve columns with readable values. -/
def decodeRow (cells : List (List Char)) : Option Row :=
  match cells with
  | [c1, c2, c3, c4, c5, c6, c7, c8, c9, c10, c11, c12] => do
    let orderDate ← decIntCell c2
    let shipDate ← decIntCell c3
    let qtyOrdered ← decIntCell c6
    let qtyDelivered ← decIntCell c7
    let inventory ← decIntCell c8
    let reorderLevel ← decIntCell c9
    let stockLevel ← decIntCell c10
    let reorderPoint ← decIntCell c11
    let inventoryLevel ← decIntCell c12
    pure { orderId := decStrCell c1, orderDate := orderDate,
           shipDate := shipDate, category := decStrCell c4,
           productId := decStrCell c5, qtyOrdered := qtyOrdered,
           qtyDelivered := qtyDelivered, inventory := inventory,
           reorderLevel := reorderLevel, stockLevel := stockLevel,
           reorderPoint := reorderPoint, inventoryLevel := inventoryLevel }
  | _ => none

/-- `df_filtered.to_csv(index=False)`: header line, then one line per
row. -/
def to_csv (df : List Row) : List Char :=
  encodeFile (headerRec :: df.map encodeRow)

/-- `load_data` applied to a CSV text: parse the lines, take the first
record as the column names, rebuild the rows. -/
def load_data (file : List Char) : Option (List Row) :=
  match parseFile file with
  | none => none
  | some [] => none
  | some (h :: rows) =>
    if h = headerRec then rows.mapM decodeRow else none

/-- A present string value survives the writer/reader pair exactly when
its text is not one of the reader's NA tokens.  Every value a previous
ingestion can produce satisfies this (see `load_data_canonical`). -/
def goodStr : Option String → Bool
  | none => true
  | some s => decide (s.data ∉ naTokens)

/-- The canonical rows: the string fields round-trippable. -/
def canonicalRow (r : Row) : Bool :=
  goodStr r.orderId && goodStr r.category && goodStr r.productId

/-! ### Concrete data for witnesses and counterexamples -/

/-- A row with every column missing. -/
def blankRow : Row :=
  { orderId := none, orderDate := none, shipDate := none, category := none,
    productId := none, qtyOrdered := none, qtyDelivered := none,
    inventory := none, reorderLevel := none, stockLevel := none,
    reorderPoint := none, inventoryLevel := none }

/-- A fully populated order/inventory row. -/
def rowA : Row :=
  { orderId := some "O1", orderDate := some 0, shipDate := some 2,
    category := some "Office", productId := some "P1", qtyOrdered := some 3,
    qtyDelivered := some 6, inventory := some 2, reorderLevel := some 5,
    stockLevel := some 10, reorderPoint := some 5, inventoryLevel := some 4 }

/-- An at-risk inventory row for product `P7` (stock below reorder). -/
def rowRisk : Row :=
  { blankRow with
      productId := some "P7"
      inventory := some 0
      reorderLevel := some 1
      stockLevel := some 0
      reorderPoint := some 1 }

/-- A row ordered on day 0. -/
def rowD0 : Row := { blankRow with orderId := some "A", orderDate := some 0 }

/-- A row ordered on day 5. -/
def rowD5 : Row := { blankRow with orderId := some "B", orderDate := some 5 }

/-- A row with a missing order date. -/
def rowNoDate : Row := { blankRow with orderId := some "C" }

/-- Two dated rows. -/
def demo3 : List Row := [rowD0, rowD5]

/-- A dated row next to an undated one. -/
def demo3x : List Row := [rowD0, rowNoDate]

/-- One order shipped three days after it was ordered. -/
def row3d : Row := { blankRow with orderDate := some 0, shipDate := some 3 }

/-- Category A delivered 1 unit. -/
def rowCatA : Row :=
  { blankRow with category := some "A", qtyDelivered := some 1, orderDate := some 0 }

/-- Category B delivered 2 units. -/
def rowCatB : Row :=
  { blankRow with category := some "B", qtyDelivered := some 2, orderDate := some 0 }

/-- Two single-row categories whose delivered totals order them B before
A in the value-descending category rollup. -/
def demo6 : List Row := [rowCatA, rowCatB]

/-- A fully populated row for the export round trip. -/
def row8 : Row :=
  { orderId := some "ORD1", orderDate := some 19723, shipDate := some 19726,
    category := some "Technology", productId := some "P100",
    qtyOrdered := some 4, qtyDelivered := some 3, inventory := some 20,
    reorderLevel := some 5, stockLevel := some 18, reorderPoint := some 6,
    inventoryLevel := some 20 }

/-- A sparse row whose strings need CSV quoting. -/
def row8b : Row :=
  { blankRow with category := some "a,b", productId := some "P\"2" }

/-- A small filtered view for the export round trip. -/
def demo8 : List Row := [row8, row8b]

/-- A filesystem with a missing workbook, a corrupt workbook, and a
two-sheet workbook. -/
def fs0 : String → ExcelSource Nat := fun p =>
  if p = "a.xlsx" then ExcelSource.missing
  else if p = "b.xlsx" then ExcelSource.corrupt "corrupt file"
  else ExcelSource.file [("Orders", 1), ("Returns", 2)]

/-! ## Helper lemmas -/

theorem insertLe_perm {α : Type} (le : α → α → Bool) (x : α) (l : List α) :
    (insertLe le x l).Perm (x :: l) := by
  induction l with
  | nil => simp [insertLe]
  | cons y ys ih =>
    simp only [insertLe]
    split
    · exact List.Perm.refl _
    · exact (ih.cons y).trans (List.Perm.swap x y ys)

theorem sortByLe_perm {α : Type} (le : α → α → Bool) (l : List α) :
    (sortByLe le l).Perm l := by
  induction l with
  | nil => simp [sortByLe]
  | cons x xs ih => exact (insertLe_perm le x (sortByLe le xs)).trans (ih.cons x)

theorem mem_sortByLe {α : Type} {le : α → α → Bool} {a : α} {l : List α} :
    a ∈ sortByLe le l ↔ a ∈ l :=
  (sortByLe_perm le l).mem_iff

theorem pairwise_insertLe {α : Type} {le : α → α → Bool}
    (htot : ∀ a b, le a b = true ∨ le b a = true)
    (htrans : ∀ a b c, le a b = true → le b c = true → le a c = true)
    (x : α) {l : List α} (hl : l.Pairwise (fun a b => le a b = true)) :
    (insertLe le x l).Pairwise (fun a b => le a b = true) := by
  induction l with
  | nil => simp [insertLe]
  | cons y ys ih =>
    rcases List.pairwise_cons.mp hl with ⟨hy, hys⟩
    simp only [insertLe]
    split
    next hxy =>
      refine List.pairwise_cons.mpr ⟨?_, hl⟩
      intro z hz
      rcases List.mem_cons.mp hz with rfl | hz
      · exact hxy
      · exact htrans x y z hxy (hy z hz)
    next hxy =>
      have hyx : le y x = true := (htot x y).resolve_left hxy
      refine List.pairwise_cons.mpr ⟨?_, ih hys⟩
      intro z hz
      have hz2 : z = x ∨ z ∈ ys := by
        have := (insertLe_perm le x ys).mem_iff.mp hz
        simpa using this
      rcases hz2 with rfl | hz2
      · exact hyx
      · exact hy z hz2

theorem pairwise_sortByLe {α : Type} {le : α → α → Bool}
    (htot : ∀ a b, le a b = true ∨ le b a = true)
    (htrans : ∀ a b c, le a b = true → le b c = true → le a c = true)
    (l : List α) :
    (sortByLe le l).Pairwise (fun a b => le a b = true) := by
  induction l with
  | nil => simp [sortByLe]
  | cons x xs ih => exact pairwise_insertLe htot htrans x ih

theorem nodup_sortByLe {α : Type} {le : α → α → Bool} {l : List α}
    (h : l.Nodup) : (sortByLe le l).Nodup :=
  (sortByLe_perm le l).symm.nodup h

theorem minDate_eq_none {l : List Int} : minDate l = none ↔ l = [] := by
  cases l with
  | nil => simp [minDate]
  | cons x xs =>
    simp only [minDate]
    cases minDate xs <;> simp

theorem minDate_le {l : List Int} {m : Int} (h : minDate l = some m) :
    ∀ x ∈ l, m ≤ x := by
  induction l generalizing m with
  | nil => simp [minDate] at h
  | cons y ys ih =>
    simp only [minDate] at h
    cases hm : minDate ys with
    | none =>
      rw [hm] at h
      have hys : ys = [] := minDate_eq_none.mp hm
      subst hys
      simp only [Option.some.injEq] at h
      subst h
      simp
    | some m2 =>
      rw [hm] at h
      simp only [Option.some.injEq] at h
      subst h
      intro x hx
      rcases List.mem_cons.mp hx with rfl | hx
      · exact min_le_left _ _
      · exact le_trans (min_le_right _ _) (ih hm x hx)

theorem maxDate_eq_none {l : List Int} : maxDate l = none ↔ l = [] := by
  cases l with
  | nil => simp [maxDate]
  | cons x xs =>
    simp only [maxDate]
    cases maxDate xs <;> simp

theorem le_maxDate {l : List Int} {m : Int} (h : maxDate l = some m) :
    ∀ x ∈ l, x ≤ m := by
  induction l generalizing m with
  | nil => simp [maxDate] at h
  | cons y ys ih =>
    simp only [maxDate] at h
    cases hm : maxDate ys with
    | none =>
      rw [hm] at h
      have hys : ys = [] := maxDate_eq_none.mp hm
      subst hys
      simp only [Option.some.injEq] at h
      subst h
      simp
    | some m2 =>
      rw [hm] at h
      simp only [Option.some.injEq] at h
      subst h
      intro x hx
      rcases List.mem_cons.mp hx with rfl | hx
      · exact le_max_left _ _
      · exact le_trans (ih hm x hx) (le_max_right _ _)

theorem dedup_length_mono {α : Type} [DecidableEq α] {l₁ l₂ : List α}
    (h : l₁ ⊆ l₂) : l₁.dedup.length ≤ l₂.dedup.length := by
  rw [← List.card_toFinset, ← List.card_toFinset]
  apply Finset.card_le_card
  intro a ha
  rw [List.mem_toFinset] at *
  exact h ha

theorem dropna_lead_times (df : List Row) :
    dropna (lead_times df) = presentLeadTimes df := by
  simp only [dropna, lead_times, presentLeadTimes, List.filterMap_map]
  rfl

/-! ## Claims -/

/-- Claim C1, amended.  In the code (`output.py` lines 43-44) the fill
rate is `sum(delivered)/sum(ordered) × 100` and the turnover is
`sum(delivered)/sum(inventory)`, each rounded to one decimal; no zero
check guards either division, so whenever the denominator sum is zero
the computed value is non-finite (`NaN`/`inf`, modelled `none`) instead
of the 0 the claim asserts.  No division exception is raised. -/
theorem c1_division_behaviour (df : List Row) :
    (sumBy Row.qtyOrdered df = 0 → fill_rate df = none) ∧
    (sumBy Row.qtyOrdered df ≠ 0 →
      fill_rate df = some (round1 (fillRateFormula df))) ∧
    (sumBy Row.inventory df = 0 → inventory_turnover df = none) ∧
    (sumBy Row.inventory df ≠ 0 →
      inventory_turnover df = some (round1 (turnoverFormula df))) := by
  refine ⟨?_, ?_, ?_, ?_⟩ <;> intro h <;>
    simp [fill_rate, inventory_turnover, pyDiv, h, fillRateFormula,
      turnoverFormula, mul_comm]

/-- Witness for C1: the nonzero-denominator clauses at a concrete row. -/
theorem c1_division_behaviour_witness :
    fill_rate [rowA] = some (round1 (fillRateFormula [rowA])) ∧
    inventory_turnover [rowA] = some (round1 (turnoverFormula [rowA])) :=
  ⟨(c1_division_behaviour [rowA]).2.1 (by decide),
   (c1_division_behaviour [rowA]).2.2.2 (by decide)⟩

/-- Counterexample to C1 as stated: on the empty filtered view both
denominator sums are zero and the code's metrics are not the claimed 0
but a non-number; the spec-side safe-division definitions do give 0. -/
theorem c1_division_behaviour_cex :
    fill_rate [] = none ∧ inventory_turnover [] = none ∧
    fill_rate_spec [] = 0 ∧ inventory_turnover_spec [] = 0 :=
  ⟨rfl, rfl, rfl, rfl⟩

/-- Claim C2, amended.  The dashboard's count (`dashboard/app.py` line
62) is the number of distinct non-missing product identifiers among the
rows with stock level strictly below reorder point, and that count never
exceeds the distinct product identifiers of the whole view; the other
dashboard (`output.py` line 45) instead counts the qualifying rows,
which can exceed the distinct-product total. -/
theorem c2_products_at_risk_distinct_bound (df : List Row) :
    products_at_risk_app df ≤ total_products df := by
  apply dedup_length_mono
  intro x hx
  rw [List.mem_filterMap] at hx ⊢
  obtain ⟨r, hr, hpx⟩ := hx
  exact ⟨r, (List.mem_filter.mp hr).1, hpx⟩

/-- Counterexample to C2 as stated: with the same at-risk product in two
snapshot rows, `output.py`'s products-at-risk count is the row count 2,
exceeding the 1 distinct product of the view. -/
theorem c2_products_at_risk_distinct_bound_cex :
    products_at_risk_out [rowRisk, rowRisk] = 2 ∧
    total_products [rowRisk, rowRisk] = 1 ∧
    products_at_risk_app [rowRisk, rowRisk] = 1 ∧
    ¬ products_at_risk_out [rowRisk, rowRisk] ≤ total_products [rowRisk, rowRisk] := by
  decide

/-- Claim C3, amended.  Filtering with the [min, max] order-date range
and the "All" category sentinel returns exactly the record set whenever
every record has an order date; a record with a missing order date fails
both date comparisons (`NaT` compares false) and is dropped, so the
identity does not extend to such records. -/
theorem c3_full_range_identity (df : List Row) (lo hi : Int)
    (hdates : ∀ r ∈ df, (r.orderDate).isSome = true)
    (hlo : minDate (orderDates df) = some lo)
    (hhi : maxDate (orderDates df) = some hi) :
    filtered_df df lo hi "All" = df := by
  simp only [filtered_df, if_pos]
  rw [List.filter_eq_self]
  intro r hr
  obtain ⟨d, hd⟩ := Option.isSome_iff_exists.mp (hdates r hr)
  have hdmem : d ∈ orderDates df := List.mem_filterMap.mpr ⟨r, hr, hd⟩
  rw [hd]
  simp only [Bool.and_eq_true, decide_eq_true_eq]
  exact ⟨minDate_le hlo d hdmem, le_maxDate hhi d hdmem⟩

/-- Witness for C3 at a concrete two-record set with dates 0 and 5. -/
theorem c3_full_range_identity_witness :
    filtered_df demo3 0 5 "All" = demo3 :=
  c3_full_range_identity demo3 0 5 (by decide) (by decide) (by decide)

/-- Counterexample to C3 as stated: a record set with one record dated 0
and one with a missing order date; filtering by [0, 0] and "All" drops
the undated record instead of returning the whole set. -/
theorem c3_full_range_identity_cex :
    minDate (orderDates demo3x) = some 0 ∧
    maxDate (orderDates demo3x) = some 0 ∧
    filtered_df demo3x 0 0 "All" = [rowD0] ∧
    filtered_df demo3x 0 0 "All" ≠ demo3x := by
  decide

/-- Claim C4, amended.  For a filtered view with exactly one order whose
ship date is its order date plus 3 days, the mean and median lead times
are 3, but the standard deviation is not 0: pandas `Series.std()` uses
`ddof=1`, whose variance (`sampleVar`, of which `std` is the square
root) is undefined (`NaN`) on a single observation. -/
theorem c4_single_order_lead_stats (r : Row) (o : Int)
    (ho : r.orderDate = some o) (hs : r.shipDate = some (o + 3)) :
    seriesMean (lead_times [r]) = some 3 ∧
    seriesMedian (lead_times [r]) = some 3 ∧
    seriesVar (lead_times [r]) = none := by
  have hl : lead_times [r] = [some 3] := by
    simp [lead_times, ho, hs]
  rw [hl]
  refine ⟨?_, ?_, ?_⟩
  · simp [seriesMean, dropna, listMean]
  · simp [seriesMedian, dropna, listMedian, sortInts, sortByLe, insertLe]
  · simp [seriesVar, dropna, sampleVar]

/-- Witness for C4 at the concrete one-order view. -/
theorem c4_single_order_lead_stats_witness :
    seriesMean (lead_times [row3d]) = some 3 ∧
    seriesMedian (lead_times [row3d]) = some 3 ∧
    seriesVar (lead_times [row3d]) = none :=
  c4_single_order_lead_stats row3d 0 rfl rfl

/-- Counterexample to C4 as stated: the lead-time sample variance (and
hence the standard deviation, its square root) of the one-order view is
undefined, not the claimed 0. -/
theorem c4_single_order_lead_stats_cex :
    seriesVar (lead_times [row3d]) = none ∧
    seriesVar (lead_times [row3d]) ≠ some 0 := by
  refine ⟨by decide, by decide⟩

/-- Claim C5, confirmed.  The per-order lead time is ship date minus
order date in whole days (`lead_times`); each of the mean, median and
variance-based statistics of the lead-time series equals the statistic
computed over only the orders that have both dates, so an order missing
either date contributes nothing (it is excluded, not counted as zero). -/
theorem c5_lead_time_missing_excluded (df : List Row) :
    seriesMean (lead_times df) = listMean (presentLeadTimes df) ∧
    seriesMedian (lead_times df) = listMedian (presentLeadTimes df) ∧
    seriesVar (lead_times df) = sampleVar (presentLeadTimes df) := by
  refine ⟨?_, ?_, ?_⟩ <;>
    simp [seriesMean, seriesMedian, seriesVar, dropna_lead_times]

theorem groupKeysInt_pairwise_lt (key : Row → Option Int) (df : List Row) :
    (groupKeysInt key df).Pairwise (· < ·) := by
  have htot : ∀ a b : Int, decide (a ≤ b) = true ∨ decide (b ≤ a) = true := by
    intro a b
    rcases le_total a b with h | h
    · exact Or.inl (decide_eq_true h)
    · exact Or.inr (decide_eq_true h)
  have htrans : ∀ a b c : Int,
      decide (a ≤ b) = true → decide (b ≤ c) = true → decide (a ≤ c) = true := by
    intro a b c hab hbc
    exact decide_eq_true (le_trans (of_decide_eq_true hab) (of_decide_eq_true hbc))
  have hsorted := pairwise_sortByLe htot htrans ((df.filterMap key).dedup)
  have hnd : (sortByLe (fun a b => decide (a ≤ b)) ((df.filterMap key).dedup)).Nodup :=
    nodup_sortByLe (List.nodup_dedup _)
  exact (hsorted.and hnd).imp
    (fun h => lt_of_le_of_ne (of_decide_eq_true h.1) h.2)

theorem mem_groupKeysInt {key : Row → Option Int} {df : List Row} {k : Int} :
    k ∈ groupKeysInt key df ↔ ∃ r ∈ df, key r = some k := by
  simp [groupKeysInt, sortInts, mem_sortByLe, List.mem_dedup, List.mem_filterMap]

theorem mem_groupKeysStr {key : Row → Option String} {df : List Row} {k : String} :
    k ∈ groupKeysStr key df ↔ ∃ r ∈ df, key r = some k := by
  simp [groupKeysStr, mem_sortByLe, List.mem_dedup, List.mem_filterMap]

/-- Claim C6, amended.  The time-bucketed rollups (`inventory_trend` in
`output.py`, `df_time` in `dashboard/app.py`) are sequences of (bucket
key, value) pairs with keys strictly ascending and every emitted bucket
backed by at least one contributing record (pandas `groupby` emits only
observed groups, so empty buckets are omitted, not zero-filled).  The
category rollup of `output.py` (`cat_perf`) equally omits empty buckets,
but its `sort_values(by="Quantity Delivered", ascending=False)` orders
it by the value, descending — not by the bucket key. -/
theorem c6_rollups_sorted_and_sparse (df : List Row) :
    (inventory_trend df).Pairwise (fun p q => p.1 < q.1) ∧
    (∀ p ∈ inventory_trend df, ∃ r ∈ df, r.orderDate = some p.1) ∧
    (df_time df).Pairwise (fun p q => p.1 < q.1) ∧
    (∀ p ∈ df_time df, ∃ r ∈ df, r.orderDate = some p.1) ∧
    (cat_perf df).Pairwise (fun p q => q.2 ≤ p.2) ∧
    (∀ p ∈ cat_perf df, ∃ r ∈ df, r.category = some p.1) := by
  have hkeys := groupKeysInt_pairwise_lt Row.orderDate df
  refine ⟨?_, ?_, ?_, ?_, ?_, ?_⟩
  · exact List.pairwise_map.mpr hkeys
  · intro p hp
    obtain ⟨k, hk, hkp⟩ := List.mem_map.mp hp
    have : p.1 = k := by rw [← hkp]
    rw [this]
    exact mem_groupKeysInt.mp hk
  · exact List.pairwise_map.mpr hkeys
  · intro p hp
    obtain ⟨k, hk, hkp⟩ := List.mem_map.mp hp
    have : p.1 = k := by rw [← hkp]
    rw [this]
    exact mem_groupKeysInt.mp hk
  · have htot : ∀ a b : String × Int,
        decide (b.2 ≤ a.2) = true ∨ decide (a.2 ≤ b.2) = true := by
      intro a b
      rcases le_total b.2 a.2 with h | h
      · exact Or.inl (decide_eq_true h)
      · exact Or.inr (decide_eq_true h)
    have htrans : ∀ a b c : String × Int, decide (b.2 ≤ a.2) = true →
        decide (c.2 ≤ b.2) = true → decide (c.2 ≤ a.2) = true := by
      intro a b c hab hbc
      exact decide_eq_true (le_trans (of_decide_eq_true hbc) (of_decide_eq_true hab))
    exact (pairwise_sortByLe htot htrans _).imp (fun h => of_decide_eq_true h)
  · intro p hp
    have hp2 : p ∈ (groupKeysStr Row.category df).map
        (fun k => (k, sumBy Row.qtyDelivered (groupRowsStr Row.category k df))) :=
      mem_sortByLe.mp hp
    obtain ⟨k, hk, hkp⟩ := List.mem_map.mp hp2
    have : p.1 = k := by rw [← hkp]
    rw [this]
    exact mem_groupKeysStr.mp hk

/-- Witness for C6: on the concrete two-record view the time rollup has
the bucket (0, 0), and the theorem's bucket-backing clause produces a
contributing record for it. -/
theorem c6_rollups_sorted_and_sparse_witness :
    ((0 : Int), (0 : Int)) ∈ inventory_trend demo6 ∧
    ∃ r ∈ demo6, r.orderDate = some 0 :=
  ⟨by decide,
   (c6_rollups_sorted_and_sparse demo6).2.1 ((0 : Int), (0 : Int)) (by decide)⟩

/-- Counterexample to C6 as stated: with one record in category "A"
(1 delivered) and one in category "B" (2 delivered), the category
rollup of `output.py` is [("B", 2), ("A", 1)] — not ascending in the
bucket key. -/
theorem c6_rollups_sorted_and_sparse_cex :
    cat_perf demo6 = [("B", 2), ("A", 1)] ∧
    ¬ (cat_perf demo6).Pairwise (fun p q => strLe p.1 q.1 = true) := by
  refine ⟨by decide, by decide⟩

/-- Claim C7.  Each orchestrator step catches its own exception and
prints a per-source diagnostic, and the run always reaches the final
completion line; but when the catalog fetch fails, the simulation step —
whose own source would succeed — also fails, because `products` was
never bound and `simulate_inventory(products)` raises a `NameError`.
The theorem shows both: every run completes, and the concrete run with
a failing API and a healthy simulator reports a simulation failure. -/
theorem c7_orchestrator_run :
    (∀ w : SourceWorld, (runMain w).2 = true) ∧
    runMain ⟨Except.ok 5, Except.error "network unreachable", fun _ => Except.ok 7⟩ =
      ([Diag.excelOk 5, Diag.apiFail "network unreachable",
        Diag.simFail nameErrorProducts], true) := by
  constructor
  · intro w
    rfl
  · rfl

/-- Claim C9, confirmed.  The tabular-file adapter raises
`FileNotFoundError` (the code's `SourceUnavailable`) when the path does
not exist, re-raises parse failures wrapped in an `Exception` carrying
the cause (the code's `SourceFormatError`), and with no sheet selector
returns every sheet keyed by name. -/
theorem c9_excel_adapter (α : Type) (fs : String → ExcelSource α)
    (path : String) (sel : PyVal) (e : String) (sheets : List (String × α)) :
    (fs path = ExcelSource.missing →
      load_excel_data fs path sel =
        LoadResult.fileNotFound ("File not found: " ++ path)) ∧
    (fs path = ExcelSource.corrupt e →
      load_excel_data fs path sel = LoadResult.exn (wrapMsg e)) ∧
    (fs path = ExcelSource.file sheets →
      load_excel_data fs path PyVal.pynone = LoadResult.allSheets sheets) := by
  refine ⟨?_, ?_, ?_⟩ <;> intro h <;> simp [load_excel_data, h, truthy]

/-- Witness for C9 on the concrete three-path filesystem `fs0`. -/
theorem c9_excel_adapter_witness :
    load_excel_data fs0 "a.xlsx" (PyVal.pystr "Orders") =
      LoadResult.fileNotFound ("File not found: " ++ "a.xlsx") ∧
    load_excel_data fs0 "b.xlsx" (PyVal.pystr "Orders") =
      LoadResult.exn (wrapMsg "corrupt file") ∧
    load_excel_data fs0 "c.xlsx" PyVal.pynone =
      LoadResult.allSheets [("Orders", 1), ("Returns", 2)] :=
  ⟨(c9_excel_adapter Nat fs0 "a.xlsx" (PyVal.pystr "Orders") "corrupt file"
      [("Orders", 1), ("Returns", 2)]).1 (by decide),
   (c9_excel_adapter Nat fs0 "b.xlsx" (PyVal.pystr "Orders") "corrupt file"
      [("Orders", 1), ("Returns", 2)]).2.1 (by decide),
   (c9_excel_adapter Nat fs0 "c.xlsx" PyVal.pynone "corrupt file"
      [("Orders", 1), ("Returns", 2)]).2.2 (by decide)⟩

/-- Claim C10, confirmed.  The selector is tested with `if sheet_name:`
— Python truthiness — so the falsy non-`None` selectors `""` and `0`
take the same read-all-sheets branch as `None`. -/
theorem c10_falsy_selector (α : Type) (fs : String → ExcelSource α) (path : String) :
    load_excel_data fs path (PyVal.pystr "") = load_excel_data fs path PyVal.pynone ∧
    load_excel_data fs path (PyVal.pyint 0) = load_excel_data fs path PyVal.pynone := by
  cases h : fs path <;> simp [load_excel_data, truthy]

/-! ### Round-trip lemmas: decimal cells -/

theorem chDig_digCh {d : Nat} (hd : d < 10) : chDig (digCh d) = some d := by
  interval_cases d <;> decide

theorem digCh_ne_minus {d : Nat} (hd : d < 10) : digCh d ≠ '-' := by
  interval_cases d <;> decide

theorem digitsValAux_digits (ds : List Nat) (h : ∀ d ∈ ds, d < 10) :
    ∀ acc : Nat, digitsValAux acc (ds.map digCh) =
      some (acc * 10 ^ ds.length + Nat.ofDigits 10 ds.reverse) := by
  induction ds with
  | nil =>
    intro acc
    simp [digitsValAux, Nat.ofDigits]
  | cons d rest ih =>
    intro acc
    have hd : d < 10 := h d (List.mem_cons_self _ _)
    have hrest : ∀ x ∈ rest, x < 10 := fun x hx => h x (List.mem_cons_of_mem _ hx)
    simp only [List.map_cons, digitsValAux, chDig_digCh hd]
    rw [ih hrest (10 * acc + d)]
    have hrev : Nat.ofDigits 10 ((d :: rest).reverse) =
        Nat.ofDigits 10 rest.reverse + 10 ^ rest.length * d := by
      rw [List.reverse_cons, Nat.ofDigits_append]
      simp [Nat.ofDigits]
    rw [hrev]
    simp only [Option.some.injEq, List.length_cons]
    ring

theorem parseNatCell_natCell (n : Nat) : parseNatCell (natCell n) = some n := by
  by_cases h0 : n = 0
  · subst h0
    decide
  · have hne : Nat.digits 10 n ≠ [] := Nat.digits_ne_nil_iff_ne_zero.mpr h0
    have hlt : ∀ d ∈ (Nat.digits 10 n).reverse, d < 10 := by
      intro d hd
      exact Nat.digits_lt_base (by norm_num) (List.mem_reverse.mp hd)
    unfold natCell parseNatCell
    rw [if_neg h0]
    rw [if_neg (by simp [hne])]
    rw [digitsValAux_digits _ hlt 0]
    simp [Nat.ofDigits_digits]

theorem natCell_head_ne_minus (n : Nat) : (natCell n).head? ≠ some '-' := by
  by_cases h0 : n = 0
  · subst h0
    decide
  · unfold natCell
    rw [if_neg h0]
    cases hd : (Nat.digits 10 n).reverse with
    | nil => simp
    | cons d rest =>
      have hdm : d ∈ (Nat.digits 10 n).reverse := by
        rw [hd]
        exact List.mem_cons_self _ _
      have hdlt : d < 10 := Nat.digits_lt_base (by norm_num) (List.mem_reverse.mp hdm)
      simp only [List.map_cons, List.head?_cons, ne_eq, Option.some.injEq]
      exact digCh_ne_minus hdlt

theorem parseIntCell_intCell (z : Int) : parseIntCell (intCell z) = some z := by
  by_cases hz : z < 0
  · have h1 : intCell z = '-' :: natCell z.natAbs := by
      unfold intCell
      rw [if_pos hz]
    rw [h1]
    have h2 : parseIntCell ('-' :: natCell z.natAbs) =
        (parseNatCell (natCell z.natAbs)).map (fun n => -(n : Int)) := by
      unfold parseIntCell
      rw [if_pos (by simp)]
      simp
    rw [h2, parseNatCell_natCell]
    show some (-(z.natAbs : Int)) = some z
    exact congrArg some (by omega)
  · have h1 : intCell z = natCell z.toNat := by
      unfold intCell
      rw [if_neg hz]
    rw [h1]
    have h2 : parseIntCell (natCell z.toNat) =
        (parseNatCell (natCell z.toNat)).map (fun n => (n : Int)) := by
      unfold parseIntCell
      rw [if_neg (natCell_head_ne_minus z.toNat)]
    rw [h2, parseNatCell_natCell]
    show some ((z.toNat : Int)) = some z
    exact congrArg some (by omega)

/-! ### Round-trip lemmas: cell values -/

theorem decIntCell_encIntCell (v : Option Int) : decIntCell (encIntCell v) = some v := by
  cases v with
  | none => decide
  | some z =>
    unfold encIntCell decIntCell
    rw [parseIntCell_intCell]

theorem decStrCell_encStrCell {v : Option String} (h : goodStr v = true) :
    decStrCell (encStrCell v) = v := by
  cases v with
  | none => decide
  | some s =>
    have h2 : s.data ∉ naTokens := of_decide_eq_true h
    unfold encStrCell decStrCell
    rw [if_neg h2]

theorem goodStr_decStrCell (cell : List Char) : goodStr (decStrCell cell) = true := by
  unfold decStrCell
  by_cases h : cell ∈ naTokens
  · rw [if_pos h]
    rfl
  · rw [if_neg h]
    simpa [goodStr] using h

/-! ### Round-trip lemmas: quoting, records, files -/

theorem takeBare_append {cell : List Char} (hq : needsQuote cell = false)
    {d : Char} (hd : d = ',' ∨ d = '\n') (rest : List Char) :
    takeBare (cell ++ d :: rest) = (cell, d :: rest) := by
  induction cell with
  | nil =>
    simp only [List.nil_append]
    unfold takeBare
    rcases hd with rfl | rfl <;> simp
  | cons c cs ih =>
    simp only [needsQuote, List.any_cons, Bool.or_eq_false_iff] at hq
    obtain ⟨⟨hc1, hc2⟩, hcs⟩ := hq
    simp only [List.cons_append]
    unfold takeBare
    rw [if_neg (by simp_all)]
    rw [ih (by simpa [needsQuote] using hcs)]

theorem takeQuoted_escape (cell : List Char) :
    ∀ rest : List Char, rest.head? ≠ some '"' →
    takeQuoted (escapeQuotes cell ++ '"' :: rest) = some (cell, rest) := by
  induction cell with
  | nil =>
    intro rest hrest
    simp only [escapeQuotes, List.nil_append]
    unfold takeQuoted
    rw [if_pos rfl, if_neg hrest]
  | cons c cs ih =>
    intro rest hrest
    by_cases hc : c = '"'
    · subst hc
      have hgoal : escapeQuotes ('"' :: cs) ++ '"' :: rest
          = '"' :: '"' :: (escapeQuotes cs ++ '"' :: rest) := by
        simp [escapeQuotes]
      rw [hgoal]
      unfold takeQuoted
      rw [if_pos rfl]
      rw [if_pos (by simp)]
      simp only [List.tail_cons]
      rw [ih rest hrest]
      rfl
    · have hgoal : escapeQuotes (c :: cs) ++ '"' :: rest
          = c :: (escapeQuotes cs ++ '"' :: rest) := by
        simp [escapeQuotes, hc]
      rw [hgoal]
      unfold takeQuoted
      rw [if_neg hc]
      rw [ih rest hrest]
      rfl

theorem parseCell_encodeCell (cell : List Char) {d : Char} (hd : d = ',' ∨ d = '\n')
    (rest : List Char) :
    parseCell (encodeCell cell ++ d :: rest) = some (cell, d :: rest) := by
  have hdq : d ≠ '"' := by rcases hd with rfl | rfl <;> decide
  unfold encodeCell
  by_cases hq : needsQuote cell = true
  · rw [if_pos hq]
    have hassoc : ('"' :: (escapeQuotes cell ++ ['"'])) ++ d :: rest
        = '"' :: (escapeQuotes cell ++ '"' :: (d :: rest)) := by simp
    rw [hassoc]
    unfold parseCell
    rw [if_pos (by simp)]
    simp only [List.tail_cons]
    exact takeQuoted_escape cell (d :: rest) (by simpa using hdq)
  · have hq2 : needsQuote cell = false := by simpa using hq
    rw [if_neg (by simp [hq2])]
    unfold parseCell
    rw [if_neg ?headne]
    · rw [takeBare_append hq2 hd rest]
    case headne =>
      cases cell with
      | nil => simpa using hdq
      | cons c cs =>
        simp only [needsQuote, List.any_cons, Bool.or_eq_false_iff] at hq2
        obtain ⟨⟨hc1, hc2⟩, -⟩ := hq2
        simp only [List.cons_append, List.head?_cons, ne_eq, Option.some.injEq]
        intro hcq
        subst hcq
        simp at hc1

theorem length_le_encodeRec (cells : List (List Char)) :
    cells.length ≤ (encodeRec cells).length + 1 := by
  induction cells with
  | nil => simp
  | cons c cs ih =>
    cases cs with
    | nil => simp [encodeRec]
    | cons c2 cs2 =>
      simp only [encodeRec, List.length_cons, List.length_append] at *
      omega

theorem parseRecAux_encodeRec (cells : List (List Char)) (hne : cells ≠ []) :
    ∀ fuel rest, cells.length ≤ fuel →
    parseRecAux fuel (encodeRec cells ++ '\n' :: rest) = some (cells, rest) := by
  induction cells with
  | nil => exact absurd rfl hne
  | cons c cs ih =>
    intro fuel rest hfuel
    cases fuel with
    | zero => simp at hfuel
    | succ f =>
      cases cs with
      | nil =>
        show parseRecAux (f + 1) (encodeCell c ++ '\n' :: rest) = some ([c], rest)
        unfold parseRecAux
        rw [parseCell_encodeCell c (Or.inr rfl) rest]
        rfl
      | cons c2 cs2 =>
        have hassoc : encodeRec (c :: c2 :: cs2) ++ '\n' :: rest
            = encodeCell c ++ ',' :: (encodeRec (c2 :: cs2) ++ '\n' :: rest) := by
          show (encodeCell c ++ ',' :: encodeRec (c2 :: cs2)) ++ '\n' :: rest = _
          simp
        rw [hassoc]
        unfold parseRecAux
        rw [parseCell_encodeCell c (Or.inl rfl)]
        show Option.map (fun p => (c :: p.1, p.2))
            (parseRecAux f (encodeRec (c2 :: cs2) ++ '\n' :: rest)) = _
        rw [ih (by simp) f rest (by simp only [List.length_cons] at hfuel ⊢; omega)]
        rfl

theorem parseRec_encodeRec (cells : List (List Char)) (hne : cells ≠ [])
    (rest : List Char) :
    parseRec (encodeRec cells ++ '\n' :: rest) = some (cells, rest) := by
  apply parseRecAux_encodeRec cells hne
  have h := length_le_encodeRec cells
  simp only [List.length_append, List.length_cons]
  omega

theorem length_le_encodeFile (recs : List (List (List Char))) :
    recs.length ≤ (encodeFile recs).length := by
  induction recs with
  | nil => simp [encodeFile]
  | cons r rs ih =>
    simp only [encodeFile, List.map_cons, List.flatten_cons, List.length_cons,
      List.length_append] at *
    omega

theorem encodeFile_cons (r : List (List Char)) (rs : List (List (List Char))) :
    encodeFile (r :: rs) = encodeRec r ++ '\n' :: encodeFile rs := by
  simp [encodeFile]

theorem parseFileAux_encodeFile (recs : List (List (List Char)))
    (hne : ∀ r ∈ recs, r ≠ []) :
    ∀ fuel, recs.length ≤ fuel →
    parseFileAux fuel (encodeFile recs) = some recs := by
  induction recs with
  | nil =>
    intro fuel _
    cases fuel <;> simp [parseFileAux, encodeFile]
  | cons r rs ih =>
    intro fuel hfuel
    cases fuel with
    | zero => simp at hfuel
    | succ f =>
      have hrne : r ≠ [] := hne r (by simp)
      rw [encodeFile_cons]
      have hlne : encodeRec r ++ '\n' :: encodeFile rs ≠ [] := by simp
      unfold parseFileAux
      rw [if_neg hlne]
      rw [parseRec_encodeRec r hrne (encodeFile rs)]
      show (parseFileAux f (encodeFile rs)).map (fun rs2 => r :: rs2) = _
      rw [ih (fun x hx => hne x (List.mem_cons_of_mem _ hx)) f
        (by simp only [List.length_cons] at hfuel; omega)]
      rfl

theorem parseFile_encodeFile (recs : List (List (List Char)))
    (hne : ∀ r ∈ recs, r ≠ []) :
    parseFile (encodeFile recs) = some recs := by
  apply parseFileAux_encodeFile recs hne
  have := length_le_encodeFile recs
  omega

/-! ### Round-trip lemmas: rows and the whole export -/

theorem decodeRow_encodeRow {r : Row} (h : canonicalRow r = true) :
    decodeRow (encodeRow r) = some r := by
  simp only [canonicalRow, Bool.and_eq_true] at h
  obtain ⟨⟨h1, h2⟩, h3⟩ := h
  simp only [encodeRow, decodeRow, decIntCell_encIntCell,
    decStrCell_encStrCell h1, decStrCell_encStrCell h2, decStrCell_encStrCell h3,
    Option.some_bind, Option.bind_eq_bind]
  rfl

theorem decodeRow_canonical {cells : List (List Char)} {r : Row}
    (h : decodeRow cells = some r) : canonicalRow r = true := by
  unfold decodeRow at h
  split at h
  · simp only [Option.bind_eq_bind, Option.bind_eq_some, Option.pure_def,
      Option.some.injEq] at h
    obtain ⟨od, _, sd, _, qo, _, qd, _, iv, _, rl, _, sl, _, rp, _, il, _, hr⟩ := h
    subst hr
    simp [canonicalRow, goodStr_decStrCell]
  · exact absurd h (by simp)

theorem mapM_decode_encode (df : List Row) (h : df.all canonicalRow = true) :
    (df.map encodeRow).mapM decodeRow = some df := by
  induction df with
  | nil => rfl
  | cons r rs ih =>
    simp only [List.all_cons, Bool.and_eq_true] at h
    simp only [List.map_cons, List.mapM_cons, decodeRow_encodeRow h.1, ih h.2,
      Option.some_bind, Option.bind_eq_bind]
    rfl

theorem mapM_decode_canonical :
    ∀ (rows : List (List (List Char))) (df : List Row),
    rows.mapM decodeRow = some df → df.all canonicalRow = true := by
  intro rows
  induction rows with
  | nil =>
    intro df h
    simp only [List.mapM_nil, Option.pure_def, Option.some.injEq] at h
    subst h
    rfl
  | cons c cs ih =>
    intro df h
    rw [List.mapM_cons] at h
    simp only [Option.bind_eq_bind, Option.bind_eq_some, Option.pure_def,
      Option.some.injEq] at h
    obtain ⟨r, hr, rest, hrest, hdf⟩ := h
    subst hdf
    simp only [List.all_cons, Bool.and_eq_true]
    exact ⟨decodeRow_canonical hr, ih rest hrest⟩

theorem encodeRow_ne_nil (r : Row) : encodeRow r ≠ [] := by
  simp [encodeRow]

/-- Claim C8, confirmed.  Exporting a filtered record set with the
delimited-text writer and re-ingesting the export reproduces the record
set field for field.  The hypothesis is exactly that the string fields
are re-ingestable (not spelled like one of the reader's NA tokens), and
the second conjunct shows every record set a previous ingestion can
produce satisfies it — so the round trip holds on every filtered view of
ingested data. -/
theorem c8_roundtrip :
    (∀ df : List Row, df.all canonicalRow = true → load_data (to_csv df) = some df) ∧
    (∀ (file : List Char) (df : List Row),
      load_data file = some df → df.all canonicalRow = true) := by
  constructor
  · intro df h
    unfold to_csv load_data
    have hne : ∀ rec ∈ headerRec :: df.map encodeRow, rec ≠ [] := by
      intro rec hrec
      rcases List.mem_cons.mp hrec with rfl | hrec
      · decide
      · obtain ⟨r, _, hr⟩ := List.mem_map.mp hrec
        rw [← hr]
        exact encodeRow_ne_nil r
    rw [parseFile_encodeFile (headerRec :: df.map encodeRow) hne]
    show (if headerRec = headerRec then (df.map encodeRow).mapM decodeRow else none)
        = some df
    rw [if_pos rfl]
    exact mapM_decode_encode df h
  · intro file df h
    unfold load_data at h
    cases hp : parseFile file with
    | none =>
      rw [hp] at h
      exact absurd h (by simp)
    | some recs =>
      rw [hp] at h
      cases recs with
      | nil => simp at h
      | cons hd rows =>
        have h2 : (if hd = headerRec then rows.mapM decodeRow else none) = some df := h
        by_cases hh : hd = headerRec
        · rw [if_pos hh] at h2
          exact mapM_decode_canonical rows df h2
        · rw [if_neg hh] at h2
          exact absurd h2 (by simp)

/-- Witness for C8: the concrete two-row view (one fully populated row,
one sparse row whose strings need CSV quoting) survives the round trip. -/
theorem c8_roundtrip_witness :
    demo8.all canonicalRow = true ∧ load_data (to_csv demo8) = some demo8 :=
  ⟨by decide, c8_roundtrip.1 demo8 (by decide)⟩

end SupplyChain
